import Mathlib

/-!
Verification development for the TrueCopilot study-guide service
(src/app/study_service.py, src/app/app.py).

The Python code is shallowly embedded: every value that `json.loads` can
produce is a `JValue`, Python exceptions are `PyErr`, and an external model
call is an `Outcome` (either a returned text or a raised error).  The external
library function `json.loads` is passed in as a parameter
`loads : String → Option JValue` (`none` models `json.JSONDecodeError`);
numeric values (delays) are modelled as rationals.
-/

namespace TrueCopilot

/-- Python values as produced by `json.loads` (src/app/study_service.py uses
`isinstance(..., list)`, `isinstance(..., dict)`, `isinstance(..., int)`, so the
embedding keeps Python's `int` / `float` / `bool` distinction).  An object is an
association list of fields in insertion order. -/
inductive JValue where
  | null
  | jbool (b : Bool)
  | jint (n : Int)
  | jfloat (q : ℚ)
  | jstr (s : String)
  | jarr (elems : List JValue)
  | jobj (fields : List (String × JValue))

/-- Python exceptions relevant to the embedded code.  `resourceExhausted` is
`google.api_core.exceptions.ResourceExhausted`, `jsonDecode` is
`json.JSONDecodeError`; everything is a subclass of `Exception`. -/
inductive PyErr where
  | resourceExhausted (msg : String)
  | jsonDecode (msg : String)
  | valueError (msg : String)
  | typeError (msg : String)
  | other (msg : String)
deriving Repr, DecidableEq

/-- Result of executing a unit of Python code: a value, or a raised exception. -/
inductive Outcome (α : Type) where
  | ok (v : α)
  | raise (e : PyErr)
deriving Repr, DecidableEq

/-- Whether an error is the provider's rate-limit error
(`except exceptions.ResourceExhausted` in `call_with_retry`). -/
def PyErr.isRateLimit : PyErr → Bool
  | .resourceExhausted _ => true
  | _ => false

/-- The message carried by an exception (`str(e)` in the source). -/
def PyErr.msg : PyErr → String
  | .resourceExhausted m => m
  | .jsonDecode m => m
  | .valueError m => m
  | .typeError m => m
  | .other m => m

/-! ## Python string primitives

Python's `str` methods are modelled by explicit recursion over character
lists (Python strings are sequences of code points, so `List Char` is the
right carrier).  Whitespace is the ASCII fragment of Python's definition. -/

/-- Python `str.strip()` on a character list. -/
def pyStripL (cs : List Char) : List Char :=
  ((cs.dropWhile Char.isWhitespace).reverse.dropWhile Char.isWhitespace).reverse

/-- Python `str.strip()`. -/
def pyStrip (s : String) : String := (pyStripL s.toList).asString

/-- Python `str.startswith(p)` on character lists. -/
def pyStartsWithL : List Char → List Char → Bool
  | _, [] => true
  | [], _ :: _ => false
  | c :: cs, p :: ps => c == p && pyStartsWithL cs ps

/-- Python `s.startswith(p)`. -/
def pyStartsWith (s p : String) : Bool := pyStartsWithL s.toList p.toList

/-- Python slicing `s[n:]` (by code points). -/
def pyDrop (s : String) (n : Nat) : String := (s.toList.drop n).asString

/-- Python `str.lower()` (ASCII fragment). -/
def pyLower (s : String) : String := (s.toList.map Char.toLower).asString

/-- One step of Python `str.split(sep)` for a non-empty separator; the fuel is
at least `rest.length + 1`, which the recursion never exhausts. -/
def pySplitSepAux (sep : List Char) : Nat → List Char → List Char → List (List Char)
  | 0, acc, rest => [acc ++ rest]
  | fuel + 1, acc, rest =>
    if pyStartsWithL rest sep then
      acc :: pySplitSepAux sep fuel [] (rest.drop sep.length)
    else
      match rest with
      | [] => [acc]
      | c :: cs => pySplitSepAux sep fuel (acc ++ [c]) cs

/-- Python `s.split(sep)` for a non-empty separator string. -/
def pySplitSep (s sep : String) : List String :=
  (pySplitSepAux sep.toList (s.toList.length + 1) [] s.toList).map List.asString

/-- Helper of `pySplitWs`: cut at every whitespace character. -/
def pySplitWsAux : List Char → List Char → List (List Char)
  | acc, [] => [acc]
  | acc, c :: cs =>
    if c.isWhitespace then acc :: pySplitWsAux [] cs
    else pySplitWsAux (acc ++ [c]) cs

/-- Python `str.split()` with no argument: split on whitespace runs,
discarding empty pieces. -/
def pySplitWs (s : String) : List String :=
  ((pySplitWsAux [] s.toList).filter (· ≠ [])).map List.asString

/-! ## Retry/backoff wrapper (`call_with_retry`, study_service.py lines 18-100)

The wrapped operation is modelled as `op : Nat → Outcome α`: `op a` is what the
`a`-th invocation (0-based attempt counter of the `for attempt in
range(max_retries + 1)` loop) returns or raises.  Delays are rationals. -/

/-- Characters matched by the character class `[\d.]` of the source regex
`retry in ([\d.]+)s?` (study_service.py line 71). -/
def isNumDotChar (c : Char) : Bool := c.isDigit || c = '.'

/-- Python word characters (ASCII fragment of `\w`), used for `\b` boundaries. -/
def isWordChar (c : Char) : Bool := c.isAlphanum || c = '_'

/-- `re.search(r'retry in ([\d.]+)s?', error_str, re.IGNORECASE)`: the leftmost
occurrence of the literal `"retry in "` (case-insensitively) followed by at
least one `[\d.]` character; the captured group is the maximal such run. -/
def findRetryGroupAux : List Char → Option (List Char)
  | [] => none
  | c :: rest =>
    if (c :: rest).map Char.toLower |>.take 9 |>.beq "retry in ".toList then
      match (c :: rest).drop 9 with
      | d :: ds =>
        if isNumDotChar d then some ((d :: ds).takeWhile isNumDotChar)
        else findRetryGroupAux rest
      | [] => findRetryGroupAux rest
    else findRetryGroupAux rest

/-- The retry-after group extracted from a rate-limit error string. -/
def findRetryGroup (msg : String) : Option String :=
  (findRetryGroupAux msg.toList).map List.asString

/-- Numeric value of a run of decimal digits. -/
def digitsVal (ds : List Char) : Nat :=
  ds.foldl (fun a c => a * 10 + (c.toNat - '0'.toNat)) 0

/-- Python `float(s)` restricted to strings over `[\d.]` (the only strings it is
applied to in the source, study_service.py lines 73 and 81): defined when the
string has at least one digit and at most one dot, the usual decimal value
(`"1."` is `1`, `".5"` is `1/2`); `none` models the `ValueError` that
`float` raises otherwise (for example on `"."` or `"1.2.3"`). -/
def pyFloatNumDot (s : String) : Option ℚ :=
  let cs := s.toList
  if cs.any Char.isDigit && (cs.count '.' ≤ 1 : Bool) && cs.all isNumDotChar then
    let intPart := cs.takeWhile (· ≠ '.')
    let fracPart := (cs.dropWhile (· ≠ '.')).drop 1
    some (mkRat (digitsVal (intPart ++ fracPart)) (10 ^ fracPart.length))
  else none

/-- Lines 71-74 of study_service.py: look for a provider-suggested retry delay
in the error text; when the captured group is present but `float` cannot parse
it, the `ValueError` raised at line 73 escapes `call_with_retry`. -/
def suggestedDelay (msg : String) : Except PyErr (Option ℚ) :=
  match findRetryGroup msg with
  | none => .ok none
  | some g =>
    match pyFloatNumDot g with
    | none => .error (.valueError g)
    | some q => .ok (some q)

/-- Observable behaviour of one `call_with_retry` run: the returned value or
raised error, how many times the operation was invoked, and the sequence of
`time.sleep` durations, in order. -/
structure RetryTrace (α : Type) where
  result : Outcome α
  calls : Nat
  sleeps : List ℚ
deriving Repr, DecidableEq

/-- The un-capped delay of study_service.py lines 78-81: the suggested delay
plus a one-second buffer when a hint was extracted, exponential backoff
`base_delay * 2 ** attempt` otherwise. -/
def rawDelay (sug : Option ℚ) (baseDelay : ℚ) (attempt : Nat) : ℚ :=
  match sug with
  | some s => s + 1
  | none => baseDelay * 2 ^ attempt

/-- The body of the `except exceptions.ResourceExhausted` handler after the
suggested-delay extraction (study_service.py lines 76-90), given the already
computed trace `rest` of the remaining attempts: when retries remain, sleep
`min(delay, max_delay)` (line 83) and continue with `rest`; otherwise re-raise
the rate-limit error. -/
def retryRL {α : Type} (rest : RetryTrace α) (maxRetries : Nat)
    (baseDelay maxDelay : ℚ) (attempt : Nat) (msg : String) :
    Except PyErr (Option ℚ) → RetryTrace α
  | .error e => ⟨.raise e, 1, []⟩
  | .ok sug =>
    if attempt < maxRetries then
      ⟨rest.result, rest.calls + 1,
        min (rawDelay sug baseDelay attempt) maxDelay :: rest.sleeps⟩
    else ⟨.raise (.resourceExhausted msg), 1, []⟩

/-- Dispatch on the outcome of one attempt (the `try`/`except` of
study_service.py lines 39-97): success returns immediately; a
`ResourceExhausted` error goes through suggested-delay extraction (lines
71-74, which can itself raise) and the retry logic; any other error re-raises
at once (lines 92-97). -/
def retryHandle {α : Type} (rest : RetryTrace α) (maxRetries : Nat)
    (baseDelay maxDelay : ℚ) (attempt : Nat) : Outcome α → RetryTrace α
  | .ok v => ⟨.ok v, 1, []⟩
  | .raise (.resourceExhausted msg) =>
    retryRL rest maxRetries baseDelay maxDelay attempt msg (suggestedDelay msg)
  | .raise e => ⟨.raise e, 1, []⟩

/-- The `for attempt in range(max_retries + 1)` loop of `call_with_retry`,
starting at attempt `attempt` with `fuel` iterations left
(`fuel = max_retries + 1 - attempt` at every reachable call). -/
def callWithRetryGo {α : Type} (op : Nat → Outcome α) (maxRetries : Nat)
    (baseDelay maxDelay : ℚ) (attempt : Nat) : Nat → RetryTrace α
  | 0 => ⟨.raise (.other "loop exhausted"), 0, []⟩
  | fuel + 1 =>
    retryHandle (callWithRetryGo op maxRetries baseDelay maxDelay (attempt + 1) fuel)
      maxRetries baseDelay maxDelay attempt (op attempt)

/-- `call_with_retry(func, ..., max_retries, base_delay, max_delay, ...)`
(study_service.py lines 18-100).  The source defaults are
`max_retries=3, base_delay=1, max_delay=60`. -/
def call_with_retry {α : Type} (op : Nat → Outcome α) (maxRetries : Nat := 3)
    (baseDelay : ℚ := 1) (maxDelay : ℚ := 60) : RetryTrace α :=
  callWithRetryGo op maxRetries baseDelay maxDelay 0 (maxRetries + 1)

/-! ## Python string primitives used by the generators -/

/-- One alternative `w` of a source regex `\b(...)\b`, searched anywhere in
`s` with word boundaries on both sides (Python `re.search`). -/
def matchesAlt (s : List Char) (w : String) : Bool :=
  let ws := w.toList
  (List.range (s.length + 1)).any fun i =>
    ((s.drop i).take ws.length).beq ws
    && (i == 0 || !isWordChar (s.getD (i - 1) ' '))
    && !isWordChar (s.getD (i + ws.length) ' ')

/-- `re.search(pattern, s)` for a pattern `\b(a1|a2|...)\b`. -/
def reSearchGeneric (alts : List String) (s : String) : Bool :=
  alts.any (matchesAlt s.toList)

/-- The `generic_patterns` list of study_service.py lines 162-169, with each
regex alternation expanded into its word alternatives
(`basics?|basic`, `advanced|advanced concepts?`, `introduction|intro`,
`overview`, `applications?`, `general concepts?`). -/
def genericPatterns : List (List String) :=
  [ ["basic", "basics"],
    ["advanced", "advanced concept", "advanced concepts"],
    ["introduction", "intro"],
    ["overview"],
    ["application", "applications"],
    ["general concept", "general concepts"] ]

/-- Lines 176-184 of study_service.py: a lowercased subtopic is generic when
some pattern matches it, the subtopic has at most 3 words, and the pattern
matches one of those words on its own. -/
def isGenericByPatterns (stLower : String) : Bool :=
  genericPatterns.any fun alts =>
    reSearchGeneric alts stLower
    && (let words := pySplitWs stLower
        decide (words.length ≤ 3) && words.any fun w => reSearchGeneric alts w)

/-- The suffixes of the literal list at study_service.py line 192. -/
def topicSuffixes : List String :=
  ["basics", "basic", "advanced", "introduction", "overview", "applications"]

/-- Lines 187-193 of study_service.py: a subtopic of at most 3 words that is
exactly the topic followed by a generic suffix is also generic. -/
def isTopicGeneric (topicLower stLower : String) : Bool :=
  pyStartsWith stLower topicLower
  && decide ((pySplitWs stLower).length ≤ 3)
  && topicSuffixes.contains (pyStrip (pyDrop stLower topicLower.length))

mutual

/-- Python `repr` of a decoded JSON value, used by `str` inside containers.
String escaping and float formatting are approximated (no claim depends on the
rendered text of non-string items). -/
def pyRepr : JValue → String
  | .null => "None"
  | .jbool true => "True"
  | .jbool false => "False"
  | .jint n => toString n
  | .jfloat q => toString q
  | .jstr s => "'" ++ s ++ "'"
  | .jarr xs => "[" ++ String.intercalate ", " (pyReprList xs) ++ "]"
  | .jobj fs => "\x7b" ++ String.intercalate ", " (pyReprFields fs) ++ "\x7d"

/-- `repr` of each element of a list. -/
def pyReprList : List JValue → List String
  | [] => []
  | v :: vs => pyRepr v :: pyReprList vs

/-- `repr` of each field of an object. -/
def pyReprFields : List (String × JValue) → List String
  | [] => []
  | (k, v) :: fs => ("'" ++ k ++ "': " ++ pyRepr v) :: pyReprFields fs

end

/-- Python `str(st)` (study_service.py lines 172, 206, 212, 230). -/
def pyStr : JValue → String
  | .jstr s => s
  | v => pyRepr v

/-- Index of the first occurrence of a character (Python `s.find(c)`, and via
the reversed list also `s.rfind(c)`). -/
def firstIdxOf (c : Char) : List Char → Option Nat
  | [] => none
  | x :: xs => if x = c then some 0 else (firstIdxOf c xs).map (· + 1)

/-- `re.search(r'\[.*\]', text, re.DOTALL)` (study_service.py lines 143, 225):
with the greedy dot-all body, the match runs from the first `[` to the last
`]`, provided the latter comes after the former.  The slice logic of lines
150-155 (`text.find('[')` / `text.rfind(']')` with `end_idx > start_idx`)
selects exactly the same span, so `bracketSpanRegex` serves both. -/
def bracketSpanRegex (s : String) : Option String :=
  let cs := s.toList
  match firstIdxOf '[' cs, (firstIdxOf ']' cs.reverse).map (fun r => cs.length - 1 - r) with
  | some i, some j =>
    if i < j then some (((cs.drop i).take (j - i + 1)).asString) else none
  | _, _ => none

/-! ## Subtopic generator (`get_subtopics`, study_service.py lines 103-237) -/

/-- The fence-stripping loop of `get_subtopics` (lines 131-140): among the
parts obtained by splitting on triple backticks, pick the first whose stripped
form starts with `"json"` (dropping that tag) or with `[`; if none does, the
text is left unchanged. -/
def fenceSelectSub : List String → String → String
  | [], orig => orig
  | p :: rest, orig =>
    let ps := pyStrip p
    if pyStartsWith ps "json" then pyStrip (pyDrop ps 4)
    else if pyStartsWith ps "[" then ps
    else fenceSelectSub rest orig

/-- JSON extraction of `get_subtopics` (lines 131-155), applied to the already
stripped response text: fence handling when the text starts with a fence,
otherwise the bracket-span regex; then strip, and if the result still does not
start with `[`, fall back to the first-`[`/last-`]` slice. -/
def extractJsonSubtopics (text : String) : String :=
  let t1 :=
    if pyStartsWith text "```" then fenceSelectSub (pySplitSep text "```") text
    else
      match bracketSpanRegex text with
      | some m => m
      | none => text
  let t2 := pyStrip t1
  if pyStartsWith t2 "[" then t2
  else
    match bracketSpanRegex t2 with
    | some m => m
    | none => t2

/-- The backfill loop of lines 207-208:
`while len(filtered) < 9 and remaining: filtered.append(remaining.pop(0))`. -/
def backfill : List String → List String → List String
  | filtered, [] => filtered
  | filtered, r :: rest =>
    if filtered.length < 9 then backfill (filtered ++ [r]) rest else filtered

/-- Lines 159-215 of `get_subtopics`: given the decoded JSON value, filter
generic subtopics, then top up to 9 from the unused originals, fall back to
the unfiltered list when everything was filtered, and truncate to 9; non-list
or empty decodes yield `[]`. -/
def subtopicsMainPath (topic : String) (decoded : JValue) : List String :=
  match decoded with
  | .jarr subtopics =>
    if 0 < subtopics.length then
      let filtered := subtopics.filterMap fun st =>
        let stStr := pyStrip (pyStr st)
        let stLower := pyLower stStr
        if isGenericByPatterns stLower || isTopicGeneric (pyLower topic) stLower then
          none
        else some stStr
      if 9 ≤ filtered.length then filtered.take 9
      else if 0 < filtered.length then
        let remaining := (subtopics.map pyStr).filter fun s => !(filtered.contains (pyStrip s))
        let filled := backfill filtered remaining
        if 9 ≤ filled.length then filled.take 9 else filled
      else (subtopics.map pyStr).take 9
    else []
  | _ => []

/-- Environment of one `get_subtopics` run: the text returned (or error
raised) by the wrapped main model call (line 126) and by the simplified retry
call (line 222), and the behaviour of the external `json.loads`
(`none` models `json.JSONDecodeError`). -/
structure GenEnv where
  mainCall : Outcome String
  retryCall : Outcome String
  loads : String → Option JValue

/-- The `except json.JSONDecodeError` handler of `get_subtopics` (lines
216-233): one simplified retry call; its response is stripped, the bracket
span extracted, decoded, and returned as strings WITHOUT the generic filter
and without truncation; any failure inside the handler yields `[]`. -/
def subtopicsRetryPath (env : GenEnv) : List String :=
  match env.retryCall with
  | .raise _ => []
  | .ok raw =>
    let rt := pyStrip raw
    let rt :=
      match bracketSpanRegex rt with
      | some m => m
      | none => rt
    match env.loads rt with
    | some (.jarr l) => if 0 < l.length then l.map pyStr else []
    | _ => []

/-- `get_subtopics(topic)` (study_service.py lines 103-237).  Total: every
internal exception is handled, so the embedding returns a plain list. -/
def get_subtopics (env : GenEnv) (topic : String) : List String :=
  match env.mainCall with
  | .raise (.jsonDecode _) => subtopicsRetryPath env
  | .raise _ => []
  | .ok raw =>
    let text := extractJsonSubtopics (pyStrip raw)
    match env.loads text with
    | none => subtopicsRetryPath env
    | some decoded => subtopicsMainPath topic decoded

/-! ## Question generator (`generate_questions`, study_service.py lines 240-307) -/

/-- Python dict read `fs.get(k)` / `k in fs` on a decoded object.  `json.loads`
never produces duplicate keys (a later binding overwrites an earlier one), so
lookup of the first binding is faithful. -/
def dictGet (fs : List (String × JValue)) (k : String) : Option JValue :=
  (fs.find? (fun kv => kv.1 = k)).map (·.2)

/-- Python dict write `fs[k] = v`: replace the binding in place when the key is
present (`json.loads` objects bind each key once), append a new binding at the
end otherwise. -/
def dictSet : List (String × JValue) → String → JValue → List (String × JValue)
  | [], k, v => [(k, v)]
  | kv :: rest, k, v => if kv.1 = k then (k, v) :: rest else kv :: dictSet rest k v

/-- Python `len(v)`: defined for sized values (sequences, strings, mappings);
`none` models the `TypeError` raised on numbers, booleans and `None`. -/
def pyLen : JValue → Option Nat
  | .jstr s => some s.length
  | .jarr l => some l.length
  | .jobj fs => some fs.length
  | _ => none

/-- Python `isinstance(v, int)`: true for ints and for bools (`bool` is a
subclass of `int`), false for floats and everything else. -/
def pyIsInstInt : JValue → Bool
  | .jint _ => true
  | .jbool _ => true
  | _ => false

/-- The integer value Python uses when comparing or indexing with an
`isinstance(..., int)` value (`True` counts as 1, `False` as 0). -/
def pyIntValOf : JValue → Int
  | .jint n => n
  | .jbool b => if b then 1 else 0
  | _ => 0

/-- Line 299-300 of study_service.py: add a placeholder explanation when the
field is absent. -/
def addExplanation (fs : List (String × JValue)) : List (String × JValue) :=
  if (dictGet fs "explanation").isSome then fs
  else dictSet fs "explanation" (.jstr "This is the correct answer.")

/-- Lines 295-296 of study_service.py: force `correct_index` to an
`isinstance(..., int)` value, substituting 0 when it is absent or not an
int/bool. -/
def repairTypeFix (fs : List (String × JValue)) : List (String × JValue) :=
  if (dictGet fs "correct_index").elim true (fun v => !pyIsInstInt v) then
    dictSet fs "correct_index" (.jint 0)
  else fs

/-- The repair pass applied to one kept record (study_service.py lines
294-300).  After the type fix, the range check
`q['correct_index'] < 0 or q['correct_index'] >= len(q.get('options', []))`
(line 297) runs with Python's short-circuit: a negative index never evaluates
`len`, while a non-negative one does, so a non-sized `options` value raises
`TypeError` there (modelled by `.error ()`), which `generate_questions`
turns into an empty result. -/
def repairRecord (fs : List (String × JValue)) : Except Unit (List (String × JValue)) :=
  if pyIntValOf ((dictGet (repairTypeFix fs) "correct_index").getD (.jint 0)) < 0 then
    .ok (addExplanation (dictSet (repairTypeFix fs) "correct_index" (.jint 0)))
  else
    match pyLen ((dictGet (repairTypeFix fs) "options").getD (.jarr [])) with
    | none => .error ()
    | some len =>
      .ok (addExplanation
        (if (len : Int)
            ≤ pyIntValOf ((dictGet (repairTypeFix fs) "correct_index").getD (.jint 0)) then
          dictSet (repairTypeFix fs) "correct_index" (.jint 0)
        else repairTypeFix fs))

/-- The validation loop of study_service.py lines 291-302: keep only dict
elements carrying both a `question` and an `options` field, repairing each;
an exception from the repair of any element aborts the whole loop
(`.error ()`), discarding even previously validated records. -/
def validateQuestions : List JValue → Except Unit (List JValue)
  | [] => .ok []
  | q :: rest =>
    match q with
    | .jobj fs =>
      if (dictGet fs "question").isSome && (dictGet fs "options").isSome then
        match repairRecord fs with
        | .error e => .error e
        | .ok fs3 =>
          match validateQuestions rest with
          | .error e => .error e
          | .ok vs => .ok (.jobj fs3 :: vs)
      else validateQuestions rest
    | _ => validateQuestions rest

/-- The fence-stripping loop of `generate_questions` (lines 276-283): the
first part whose stripped form starts with `"json"`, `\x7b` or `[` is taken
(dropping a leading `json` tag); otherwise the text is left unchanged. -/
def fenceSelectQ : List String → String → String
  | [], orig => orig
  | p :: rest, orig =>
    let ps := pyStrip p
    if pyStartsWith ps "json" || pyStartsWith ps "\x7b" || pyStartsWith ps "[" then
      if pyStartsWith ps "json" then pyStrip (pyDrop ps 4) else ps
    else fenceSelectQ rest orig

/-- Response normalization of `generate_questions` (lines 275-285), applied to
the already stripped text: ONLY markdown code fences are handled; unlike
`get_subtopics` there is no bracket-span search, so prose around a JSON
payload is left in place. -/
def extractJsonQuestions (text : String) : String :=
  let t1 :=
    if pyStartsWith text "```" then fenceSelectQ (pySplitSep text "```") text
    else text
  pyStrip t1

/-- Environment of one `generate_questions` run: the wrapped model call
(line 271) and the external `json.loads`. -/
structure QEnv where
  call : Outcome String
  loads : String → Option JValue

/-- The decoded JSON array of one `generate_questions` run, when the call
succeeds, the normalized text decodes, and the decode is a list (lines
271-289); `none` otherwise. -/
def decodedQuestions (env : QEnv) : Option (List JValue) :=
  match env.call with
  | .raise _ => none
  | .ok raw =>
    match env.loads (extractJsonQuestions (pyStrip raw)) with
    | some (.jarr qs) => some qs
    | _ => none

/-- `generate_questions(subtopic, topic, num_questions)` (study_service.py
lines 240-307): validate and repair the decoded records; any exception
(model call failure, decode failure, or a `TypeError` inside the repair loop)
is caught at line 304 and yields `[]`; a non-list decode yields `[]` at
line 303. -/
def generate_questions (env : QEnv) : List JValue :=
  match decodedQuestions env with
  | none => []
  | some qs =>
    match validateQuestions qs with
    | .ok vs => vs
    | .error _ => []

/-! ## Study tree orchestrator (`create_study_tree`, study_service.py
lines 310-415)

The thread pool fans out one `generate_questions` invocation per subtopic and
`as_completed` yields futures in an arbitrary completion order; the loop body
writes each entry back at its original index.  The embedding takes the
completion order as an explicit list of original indices and the per-index
invocation result as `qres : Nat → Outcome (List JValue)` (`raise` models a
future whose `result()` re-raises, handled at lines 393-398 by substituting an
entry with no questions). -/

/-- One subtopic entry of the result tree (lines 388-391 / 395-398). -/
structure SubtopicEntry where
  name : String
  questions : List JValue

/-- The result dictionary of `create_study_tree` (lines 412-415). -/
structure StudyTree where
  topic : String
  subtopics : List SubtopicEntry

/-- The entry written back for original index `i` (lines 385-398): the
generated questions on success, an empty list when `future.result()`
raised. -/
def mkEntry (subs : List String) (qres : Nat → Outcome (List JValue)) (i : Nat) : SubtopicEntry :=
  match qres i with
  | .ok qs => ⟨subs.getD i "", qs⟩
  | .raise _ => ⟨subs.getD i "", []⟩

/-- The `for future in as_completed(...)` loop (lines 381-398), iterating over
completion order `order` and writing each entry into the result buffer at its
original index. -/
def writeBack (subs : List String) (qres : Nat → Outcome (List JValue)) :
    List Nat → List (Option SubtopicEntry) → List (Option SubtopicEntry)
  | [], acc => acc
  | i :: rest, acc => writeBack subs qres rest (acc.set i (some (mkEntry subs qres i)))

/-- `create_study_tree(topic, questions_per_subtopic)` (lines 310-415):
get subtopics, truncate to the first 9, return an empty tree when none;
otherwise fan out question generation, collect by original index into a
buffer initialised with `None`, and drop any `None` leftovers (line 401). -/
def create_study_tree (env : GenEnv) (topic : String)
    (qres : Nat → Outcome (List JValue)) (order : List Nat) : StudyTree :=
  let subs := (get_subtopics env topic).take 9
  if subs.isEmpty then ⟨topic, []⟩
  else
    ⟨topic, (writeBack subs qres order (List.replicate subs.length none)).reduceOption⟩

/-! ## HTTP layer (src/app/app.py) -/

/-- Python `int(s)` on a string: optional surrounding whitespace, optional
sign, then decimal digits possibly separated by single underscores (no
leading, trailing or doubled underscore); `none` models `ValueError`. -/
def parsePyIntDigits (cs : List Char) : Option Nat :=
  if cs ≠ [] ∧ cs.head? ≠ some '_' ∧ cs.getLast? ≠ some '_'
      ∧ cs.all (fun c => c.isDigit || c = '_')
      ∧ (cs.zip cs.tail).all (fun p => !(p.1 = '_' ∧ p.2 = '_')) then
    some (digitsVal (cs.filter Char.isDigit))
  else none

/-- Python `int(s)` for a string argument. -/
def parsePyIntStr (s : String) : Option Int :=
  match pyStripL s.toList with
  | '+' :: rest => (parsePyIntDigits rest).map Int.ofNat
  | '-' :: rest => (parsePyIntDigits rest).map (fun n => -(n : Int))
  | cs => (parsePyIntDigits cs).map Int.ofNat

/-- Python `int(x)` on a decoded JSON value: ints pass through, bools count
as 0/1, floats truncate toward zero, numeric strings parse; `none` models the
`ValueError`/`TypeError` on everything else (caught at app.py line 34). -/
def pyIntOf : JValue → Option Int
  | .jint n => some n
  | .jbool b => some (if b then 1 else 0)
  | .jfloat q => some (if 0 ≤ q then ⌊q⌋ else ⌈q⌉)
  | .jstr s => parsePyIntStr s
  | _ => none

/-- The `questions_per_subtopic` validation of the `/api/generate-study`
route (app.py lines 24, 30-35): default 3 when the field is missing, coerce
with `int(...)`, reset to 3 when the coercion raises or the value falls
outside `[1, 10]`. -/
def generate_study_qps (data : List (String × JValue)) : Int :=
  match pyIntOf ((dictGet data "questions_per_subtopic").getD (.jint 3)) with
  | none => 3
  | some n => if n < 1 ∨ 10 < n then 3 else n

/-- Responses produced by the route handlers of app.py. -/
inductive HttpResp where
  | ok (msg : String)
  | badRequest (msg : String)
  | serverError (msg : String)
deriving Repr, DecidableEq

/-- Environment of one transition-message generation: the single wrapped
model call. -/
structure TransitionEnv where
  call : Outcome String

/-- Modelled from the spec: `generate_planet_transition_message` is imported
from `study_service` by src/app/app.py (line 2) and called by the
`/api/planet-transition` route (line 90), but its definition is not among the
source files.  Per spec section 4.6 it takes the topic, the two subtopic
names and their ordinal planet positions, issues exactly one model call for a
short creative sentence, and returns the trimmed text verbatim with no JSON
parsing; any exception propagates unchanged.  The second component counts the
model calls issued. -/
def generate_planet_transition_message (env : TransitionEnv)
    (_topic _fromPlanet _toPlanet _fromSub _toSub : String) : Outcome String × Nat :=
  (match env.call with
   | .ok raw => .ok (pyStrip raw)
   | .raise e => .raise e, 1)

/-- The `/api/planet-transition` route (app.py lines 76-95): 400 when any
stripped field is empty, otherwise call the generator; an exception from it is
caught by the generic handler and reported as a 500 with the error text. -/
def planet_transition (env : TransitionEnv)
    (topic fromPlanet toPlanet fromSub toSub : String) : HttpResp :=
  if pyStrip topic = "" ∨ pyStrip fromPlanet = "" ∨ pyStrip toPlanet = ""
      ∨ pyStrip fromSub = "" ∨ pyStrip toSub = "" then
    .badRequest "All fields are required"
  else
    match (generate_planet_transition_message env (pyStrip topic) (pyStrip fromPlanet)
        (pyStrip toPlanet) (pyStrip fromSub) (pyStrip toSub)).1 with
    | .ok m => .ok m
    | .raise e => .serverError e.msg

/-! ## Theorems about the retry wrapper (claims C3, C4, C5) -/

/-- Unfolding equation for one iteration of the retry loop. -/
theorem callWithRetryGo_succ {α : Type} (op : Nat → Outcome α) (maxRetries : Nat)
    (b M : ℚ) (a fuel : Nat) :
    callWithRetryGo op maxRetries b M a (fuel + 1) =
      retryHandle (callWithRetryGo op maxRetries b M (a + 1) fuel)
        maxRetries b M a (op a) := rfl

/-- Invariant of the retry loop: starting at attempt `a` with the exact
remaining fuel, if every attempt before `maxRetries` raises a rate-limit
error whose retry-after extraction does not itself raise, and attempt
`maxRetries` succeeds, the loop returns the success value after `fuel`
invocations. -/
theorem callWithRetryGo_ok_after {α : Type} (op : Nat → Outcome α) (maxRetries : Nat)
    (b M : ℚ) (v : α) (h2 : op maxRetries = .ok v) :
    ∀ fuel a, a + fuel = maxRetries + 1 → a ≤ maxRetries →
    (∀ k, a ≤ k → k < maxRetries →
      ∃ msg, op k = .raise (.resourceExhausted msg) ∧ ∃ r, suggestedDelay msg = .ok r) →
    (callWithRetryGo op maxRetries b M a fuel).result = .ok v ∧
      (callWithRetryGo op maxRetries b M a fuel).calls = fuel := by
  intro fuel
  induction fuel with
  | zero => intro a hsum hle _; omega
  | succ fuel ih =>
    intro a hsum hle h1
    rcases Nat.lt_or_ge a maxRetries with hlt | hge
    · obtain ⟨msg, hop, r, hr⟩ := h1 a le_rfl hlt
      have hrec := ih (a + 1) (by omega) (by omega)
        (fun k hk1 hk2 => h1 k (by omega) hk2)
      rw [callWithRetryGo_succ, hop]
      simp only [retryHandle]
      rw [hr]
      simp only [retryRL, if_pos hlt]
      exact ⟨hrec.1, by simp [hrec.2]⟩
    · have ha : a = maxRetries := le_antisymm hle hge
      subst ha
      have hfuel : fuel = 0 := by omega
      subst hfuel
      rw [callWithRetryGo_succ, h2]
      exact ⟨rfl, rfl⟩

/-- C3 (amended): if an operation raises a rate-limit error on each of the
first `max_retries` attempts — each error's retry-after extraction succeeding
or absent — and then succeeds, `call_with_retry` returns the success value and
the operation is invoked exactly `max_retries + 1` times.  (The parseability
proviso is needed: an unparseable retry-after group makes line 73's `float`
raise instead, see `c3_counterexample`.) -/
theorem c3_rate_limit_then_success {α : Type} (op : Nat → Outcome α)
    (maxRetries : Nat) (b M : ℚ) (v : α)
    (h1 : ∀ k, k < maxRetries →
      ∃ msg, op k = .raise (.resourceExhausted msg) ∧ ∃ r, suggestedDelay msg = .ok r)
    (h2 : op maxRetries = .ok v) :
    (call_with_retry op maxRetries b M).result = .ok v ∧
      (call_with_retry op maxRetries b M).calls = maxRetries + 1 :=
  callWithRetryGo_ok_after op maxRetries b M v h2 (maxRetries + 1) 0 (by omega)
    (by omega) (fun k _ hk2 => h1 k hk2)

/-- An operation that raises a parseable rate-limit error twice, then
succeeds. -/
def opRateLimited : Nat → Outcome Int := fun k =>
  if k < 2 then .raise (.resourceExhausted "rate limit, retry in 2s") else .ok 7

/-- Witness for C3 (amended) at a concrete operation: two rate-limit errors,
then success; three invocations in all. -/
theorem c3_rate_limit_then_success_witness :
    (call_with_retry opRateLimited 2 1 60).result = .ok 7 ∧
      (call_with_retry opRateLimited 2 1 60).calls = 3 :=
  c3_rate_limit_then_success opRateLimited 2 1 60 7
    (fun k hk => ⟨"rate limit, retry in 2s",
      by interval_cases k <;> rfl, some 2, by rfl⟩)
    rfl

/-- An operation whose rate-limit error carries the retry-after group `"."`,
which Python's `float` cannot parse; it raises that error on the first three
attempts and would succeed on the fourth. -/
def opBadHint : Nat → Outcome Int := fun k =>
  if k < 3 then .raise (.resourceExhausted "retry in .") else .ok 42

/-- Counterexample to C3 as stated: `opBadHint` raises a rate-limit error on
each of the first `max_retries = 3` attempts and then succeeds, yet
`call_with_retry` (with the source defaults) invokes it only once and raises a
`ValueError` instead of returning the success value: the retry-after group
`"."` extracted at study_service.py line 71 makes `float` raise at line 73. -/
theorem c3_counterexample :
    (∀ k, k < 3 → opBadHint k = .raise (.resourceExhausted "retry in .")) ∧
      opBadHint 3 = .ok 42 ∧
      (call_with_retry opBadHint 3 1 60).result = .raise (.valueError ".") ∧
      (call_with_retry opBadHint 3 1 60).calls = 1 := by
  refine ⟨by decide, rfl, rfl, rfl⟩

/-- C4: an operation whose first invocation raises a non-rate-limit error is
invoked exactly once; the error propagates immediately with no sleep. -/
theorem c4_non_rate_limit_fails_fast {α : Type} (op : Nat → Outcome α) (e : PyErr)
    (maxRetries : Nat) (b M : ℚ)
    (h0 : op 0 = .raise e) (hnr : e.isRateLimit = false) :
    call_with_retry op maxRetries b M = ⟨.raise e, 1, []⟩ := by
  unfold call_with_retry
  rw [callWithRetryGo_succ, h0]
  cases e with
  | resourceExhausted m => simp [PyErr.isRateLimit] at hnr
  | jsonDecode m => rfl
  | valueError m => rfl
  | typeError m => rfl
  | other m => rfl

/-- An operation that always raises a generic (non-rate-limit) error. -/
def opGenericError : Nat → Outcome Int := fun _ => .raise (.other "boom")

/-- Witness for C4 at a concrete operation. -/
theorem c4_non_rate_limit_fails_fast_witness :
    call_with_retry opGenericError 3 1 60 = ⟨.raise (.other "boom"), 1, []⟩ :=
  c4_non_rate_limit_fails_fast opGenericError (.other "boom") 3 1 60 rfl rfl

/-- C5 (amended): on a retried rate-limit attempt `a`, the delay slept before
the next attempt is `min(max_delay, suggested + 1)` when the error string
carries a parseable provider-suggested retry-after duration, and
`min(max_delay, base_delay * 2 ^ attempt)` when it carries none: the
`max_delay` cap of line 83 applies to the suggested delay as well. -/
theorem c5_delay_formula {α : Type} (op : Nat → Outcome α) (maxRetries : Nat)
    (b M : ℚ) (a fuel : Nat) (msg : String) (sug : Option ℚ)
    (hop : op a = .raise (.resourceExhausted msg))
    (hs : suggestedDelay msg = .ok sug)
    (ha : a < maxRetries) :
    (callWithRetryGo op maxRetries b M a (fuel + 1)).sleeps
      = min M (rawDelay sug b a) ::
        (callWithRetryGo op maxRetries b M (a + 1) fuel).sleeps
      ∧ (∀ s, sug = some s → rawDelay sug b a = s + 1)
      ∧ (sug = none → rawDelay sug b a = b * 2 ^ a) := by
  refine ⟨?_, ?_, ?_⟩
  · rw [callWithRetryGo_succ, hop]
    simp only [retryHandle]
    rw [hs]
    simp only [retryRL, if_pos ha]
    rw [min_comm]
  · intro s hsug
    subst hsug
    rfl
  · intro hsug
    subst hsug
    rfl

/-- An operation whose first attempt raises a rate-limit error suggesting a
2-second retry delay, then succeeds. -/
def opSmallHint : Nat → Outcome Int := fun k =>
  if k = 0 then .raise (.resourceExhausted "quota, retry in 2s") else .ok 0

/-- Witness for C5 (amended) at a concrete operation: the suggested delay 2
yields a sleep of `min 60 (2 + 1) = 3` before attempt 1. -/
theorem c5_delay_formula_witness :
    (callWithRetryGo opSmallHint 3 1 60 0 3).sleeps
      = min 60 (rawDelay (some 2) 1 0) :: (callWithRetryGo opSmallHint 3 1 60 1 2).sleeps :=
  (c5_delay_formula opSmallHint 3 1 60 0 2 "quota, retry in 2s" (some 2)
    rfl rfl (by omega)).1

/-- An operation whose first attempt raises a rate-limit error suggesting a
100-second retry delay, then succeeds. -/
def opBigHint : Nat → Outcome Int := fun k =>
  if k = 0 then .raise (.resourceExhausted "quota exceeded, retry in 100s") else .ok 0

/-- Counterexample to C5 as stated: the error suggests `s = 100`, but with the
source defaults (`max_delay = 60`) the delay actually slept is 60, not
`s + 1 = 101`: line 83 caps the suggested delay at `max_delay`. -/
theorem c5_counterexample :
    suggestedDelay "quota exceeded, retry in 100s" = .ok (some 100) ∧
      (call_with_retry opBigHint 3 1 60).sleeps = [60] ∧ (60 : ℚ) ≠ 100 + 1 := by
  refine ⟨rfl, ?_, by norm_num⟩
  have h1 : (call_with_retry opBigHint 3 1 60).sleeps
      = min (rawDelay (some 100) 1 0) 60 :: (callWithRetryGo opBigHint 3 1 60 1 3).sleeps := by
    unfold call_with_retry
    rw [callWithRetryGo_succ]
    rw [show opBigHint 0 = .raise (.resourceExhausted "quota exceeded, retry in 100s") from rfl]
    simp only [retryHandle]
    rw [show suggestedDelay "quota exceeded, retry in 100s" = .ok (some 100) from rfl]
    simp only [retryRL, if_pos (by norm_num : (0 : Nat) < 3)]
  have h2 : (callWithRetryGo opBigHint 3 1 60 1 3).sleeps = [] := by
    rw [callWithRetryGo_succ]
    rw [show opBigHint 1 = .ok 0 from rfl]
    rfl
  have h3 : rawDelay (some 100) 1 0 = 101 := by norm_num [rawDelay]
  rw [h1, h2, h3, min_eq_right (by norm_num : (60 : ℚ) ≤ 101)]

/-! ## Theorems about the subtopic generator (claims C1, C6) -/

/-- Every branch of the main decode path of `get_subtopics` truncates its
result to at most 9 subtopics. -/
theorem subtopicsMainPath_length_le (topic : String) (d : JValue) :
    (subtopicsMainPath topic d).length ≤ 9 := by
  cases d with
  | jarr l =>
    simp only [subtopicsMainPath]
    split_ifs <;> (simp_all [List.length_take]; try omega)
  | null => simp [subtopicsMainPath]
  | jbool b => simp [subtopicsMainPath]
  | jint n => simp [subtopicsMainPath]
  | jfloat q => simp [subtopicsMainPath]
  | jstr s => simp [subtopicsMainPath]
  | jobj fs => simp [subtopicsMainPath]

/-- C1 (amended): `get_subtopics` never raises (it is total by construction,
every handler returning a list), and its result has length at most 9 on every
path EXCEPT the JSON-decode-failure retry path: the retry handler's
`return [str(st) for st in subtopics]` (study_service.py line 230) does not
truncate, so the returned length equals the decoded retry list's length and
can exceed 9 (see `c1_counterexample`). -/
theorem c1_subtopics_length_or_retry (env : GenEnv) (topic : String) :
    (get_subtopics env topic).length ≤ 9 ∨
      get_subtopics env topic = subtopicsRetryPath env := by
  cases h : env.mainCall with
  | ok raw =>
    have hred : get_subtopics env topic =
        match env.loads (extractJsonSubtopics (pyStrip raw)) with
        | none => subtopicsRetryPath env
        | some decoded => subtopicsMainPath topic decoded := by
      unfold get_subtopics
      rw [h]
    cases hl : env.loads (extractJsonSubtopics (pyStrip raw)) with
    | none =>
      right
      rw [hred, hl]
    | some decoded =>
      left
      rw [hred, hl]
      exact subtopicsMainPath_length_le topic decoded
  | raise e =>
    cases e with
    | jsonDecode m =>
      right
      unfold get_subtopics
      rw [h]
    | resourceExhausted m =>
      left
      unfold get_subtopics
      rw [h]
      simp
    | valueError m =>
      left
      unfold get_subtopics
      rw [h]
      simp
    | typeError m =>
      left
      unfold get_subtopics
      rw [h]
      simp
    | other m =>
      left
      unfold get_subtopics
      rw [h]
      simp

/-- The simplified-retry response used by the C1 counterexample: a valid JSON
array of ten strings. -/
def retryTextC1 : String :=
  "[\"A0\", \"A1\", \"A2\", \"A3\", \"A4\", \"A5\", \"A6\", \"A7\", \"A8\", \"A9\"]"

/-- A `json.loads` behaviour agreeing with Python's on the two strings this
run feeds it: the prose `"hello"` fails to decode, and `retryTextC1` decodes
to the ten-element string array it denotes. -/
def loadsC1 : String → Option JValue := fun s =>
  if s = retryTextC1 then
    some (.jarr [.jstr "A0", .jstr "A1", .jstr "A2", .jstr "A3", .jstr "A4",
      .jstr "A5", .jstr "A6", .jstr "A7", .jstr "A8", .jstr "A9"])
  else none

/-- A run whose main model call returns undecodable prose and whose simplified
retry call returns a ten-element JSON array. -/
def envC1 : GenEnv := ⟨.ok "hello", .ok retryTextC1, loadsC1⟩

/-- Counterexample to C1 as stated: on this run `get_subtopics` returns ten
subtopics — the retry path of study_service.py line 230 performs no
truncation to 9. -/
theorem c1_counterexample :
    (get_subtopics envC1 "Photosynthesis").length = 10 ∧
      ¬ (get_subtopics envC1 "Photosynthesis").length ≤ 9 := by
  refine ⟨by decide, by decide⟩

/-- A found index points at the character looked for. -/
theorem firstIdxOf_get (c : Char) :
    ∀ (l : List Char) (i : Nat), firstIdxOf c l = some i → l[i]? = some c := by
  intro l
  induction l with
  | nil => intro i h; simp [firstIdxOf] at h
  | cons x xs ih =>
    intro i h
    by_cases hx : x = c
    · simp only [firstIdxOf, if_pos hx] at h
      obtain rfl := Option.some.inj h
      simpa using hx
    · simp only [firstIdxOf, if_neg hx, Option.map_eq_some'] at h
      obtain ⟨i2, hi2, rfl⟩ := h
      simpa using ih i2 hi2

/-- The span selected by the bracket regex starts with `[` and ends with `]`. -/
theorem bracketSpanRegex_form (s m : String) (h : bracketSpanRegex s = some m) :
    m.toList.head? = some '[' ∧ m.toList.getLast? = some ']' := by
  simp only [bracketSpanRegex] at h
  cases hi : firstIdxOf '[' s.toList with
  | none => rw [hi] at h; simp at h
  | some i =>
    cases hr : firstIdxOf ']' s.toList.reverse with
    | none => rw [hi, hr] at h; simp at h
    | some r =>
      rw [hi, hr] at h
      simp only [Option.map_some'] at h
      set cs := s.toList with hcs
      set j := cs.length - 1 - r with hj
      by_cases hij : i < j
      · rw [if_pos hij] at h
        obtain rfl := (Option.some.inj h).symm
        have hopen : cs[i]? = some '[' := firstIdxOf_get '[' cs i hi
        have hrev : cs.reverse[r]? = some ']' := firstIdxOf_get ']' cs.reverse r hr
        have hrlt : r < cs.length := by
          have := List.getElem?_eq_some_iff.mp hrev
          simpa using this.1
        have hclose : cs[j]? = some ']' := by
          rw [List.getElem?_reverse (by simpa using hrlt)] at hrev
          simpa [hj] using hrev
        have hjlt : j < cs.length := (List.getElem?_eq_some_iff.mp hclose).1
        constructor
        · have : (((cs.drop i).take (j - i + 1)).asString).toList
              = (cs.drop i).take (j - i + 1) := rfl
          rw [this]
          rcases hd : cs.drop i with _ | ⟨d, ds⟩
          · have : cs[i]? = none := by
              rw [← List.head?_drop, hd]
              rfl
            rw [this] at hopen
            cases hopen
          · have hdd : cs[i]? = some d := by
              rw [← List.head?_drop, hd]
              rfl
            have : d = '[' := by
              rw [hdd] at hopen
              exact Option.some.inj hopen
            subst this
            simp [List.take_succ_cons, hd, ← Nat.sub_add_comm]
        · have : (((cs.drop i).take (j - i + 1)).asString).toList
              = (cs.drop i).take (j - i + 1) := rfl
          rw [this]
          have hlen : ((cs.drop i).take (j - i + 1)).length = j - i + 1 := by
            rw [List.length_take, List.length_drop]
            omega
          rw [List.getLast?_eq_getElem?, hlen]
          have h1 : (j - i + 1) - 1 = j - i := by omega
          rw [h1, List.getElem?_take_of_lt (by omega), List.getElem?_drop]
          have h2 : i + (j - i) = j := by omega
          rw [h2]
          exact hclose
      · rw [if_neg hij] at h
        cases h

/-- A string with no leading or trailing whitespace character is unchanged by
`strip`. -/
theorem pyStrip_of_bracket_ends (m : String)
    (h1 : m.toList.head? = some '[') (h2 : m.toList.getLast? = some ']') :
    pyStrip m = m := by
  unfold pyStrip pyStripL
  have hcons : m.toList = '[' :: m.toList.tail := List.eq_cons_of_mem_head? h1
  rw [hcons]
  rw [List.dropWhile_cons_of_neg (by decide)]
  have hrev : ('[' :: m.toList.tail).reverse.head? = some ']' := by
    rw [List.head?_reverse, ← hcons]
    exact h2
  have hrcons : ('[' :: m.toList.tail).reverse
      = ']' :: ('[' :: m.toList.tail).reverse.tail := List.eq_cons_of_mem_head? hrev
  rw [hrcons, List.dropWhile_cons_of_neg (by decide), ← hrcons, List.reverse_reverse,
    ← hcons]
  rfl

/-- A string starting with `[` satisfies the `startswith('[')` test. -/
theorem pyStartsWith_of_head (m : String) (h1 : m.toList.head? = some '[') :
    pyStartsWith m "[" = true := by
  unfold pyStartsWith
  rw [List.eq_cons_of_mem_head? h1]
  simp [pyStartsWithL]

/-- The subtopic-path normalizer extracts the bracketed span from non-fenced
text whenever the regex finds one. -/
theorem extractJsonSubtopics_span (t m : String)
    (hf : pyStartsWith t "```" = false) (hbr : bracketSpanRegex t = some m) :
    extractJsonSubtopics t = m := by
  obtain ⟨h1, h2⟩ := bracketSpanRegex_form t m hbr
  unfold extractJsonSubtopics
  rw [hf]
  simp only [Bool.false_eq_true, if_false, hbr]
  rw [pyStrip_of_bracket_ends m h1 h2, pyStartsWith_of_head m h1]
  simp

/-- C6 (amended): the bracket-span extraction from prose-wrapped JSON happens
in the subtopic-generation normalizer (and, through the same
`bracketSpanRegex`, on its retry path) — in particular the spec's example
`"Sure! [\"A\", \"B\"]"` yields `'["A", "B"]'` there — but NOT in the
question-generation normalizer, which only strips code fences: any non-fenced
text reaches the JSON decoder unchanged (modulo `strip`). -/
theorem c6_normalizer_paths :
    extractJsonSubtopics "Sure! [\"A\", \"B\"]" = "[\"A\", \"B\"]"
    ∧ (∀ t m, pyStartsWith t "```" = false → bracketSpanRegex t = some m →
        extractJsonSubtopics t = m)
    ∧ (∀ t, pyStartsWith t "```" = false → extractJsonQuestions t = pyStrip t) := by
  refine ⟨rfl, extractJsonSubtopics_span, ?_⟩
  intro t ht
  unfold extractJsonQuestions
  rw [ht]
  simp

/-- Witness for C6 (amended) at concrete inputs: a prose-wrapped span is
extracted by the subtopic normalizer and left alone by the question
normalizer. -/
theorem c6_normalizer_paths_witness :
    extractJsonSubtopics "Prose [1, 2] more" = "[1, 2]" ∧
      extractJsonQuestions "Sure! [\"A\", \"B\"]" = pyStrip "Sure! [\"A\", \"B\"]" :=
  ⟨c6_normalizer_paths.2.1 "Prose [1, 2] more" "[1, 2]" rfl rfl,
    c6_normalizer_paths.2.2 "Sure! [\"A\", \"B\"]" rfl⟩

/-- Counterexample to C6 as stated: on the raw response
`"Sure! [\"A\", \"B\"]"` the question-generation normalizer (study_service.py
lines 275-285) returns the text unchanged — it never isolates the bracketed
span, so the claim fails for that model-call path. -/
theorem c6_counterexample :
    extractJsonQuestions "Sure! [\"A\", \"B\"]" = "Sure! [\"A\", \"B\"]" ∧
      "Sure! [\"A\", \"B\"]" ≠ "[\"A\", \"B\"]" := by
  exact ⟨rfl, by decide⟩

/-! ## Theorems about the question generator (claims C2, C10) -/

/-- Lookup on a non-empty dict. -/
theorem dictGet_cons (kv : String × JValue) (fs : List (String × JValue)) (k : String) :
    dictGet (kv :: fs) k = if kv.1 = k then some kv.2 else dictGet fs k := by
  by_cases h : kv.1 = k
  · simp [dictGet, List.find?_cons_of_pos, h]
  · simp [dictGet, List.find?_cons_of_neg, h]

/-- Writing a key then reading it yields the written value. -/
theorem dictGet_dictSet_self (k : String) (v : JValue) :
    ∀ fs, dictGet (dictSet fs k v) k = some v := by
  intro fs
  induction fs with
  | nil => simp [dictSet, dictGet_cons]
  | cons kv rest ih =>
    by_cases hk : kv.1 = k
    · simp [dictSet, hk, dictGet_cons]
    · simp [dictSet, hk, dictGet_cons, ih]

/-- Writing one key leaves every other key's value unchanged. -/
theorem dictGet_dictSet_ne (k k2 : String) (v : JValue) (hne : k ≠ k2) :
    ∀ fs, dictGet (dictSet fs k2 v) k = dictGet fs k := by
  intro fs
  induction fs with
  | nil => simp [dictSet, dictGet_cons, Ne.symm hne]
  | cons kv rest ih =>
    by_cases hk : kv.1 = k2
    · simp [dictSet, hk, dictGet_cons, Ne.symm hne]
    · simp [dictSet, hk, dictGet_cons, ih]

/-- `addExplanation` touches only the `explanation` key. -/
theorem dictGet_addExplanation_ne (fs : List (String × JValue)) (k : String)
    (hk : k ≠ "explanation") :
    dictGet (addExplanation fs) k = dictGet fs k := by
  unfold addExplanation
  split
  · rfl
  · exact dictGet_dictSet_ne k "explanation" _ hk fs

/-- `repairTypeFix` touches only the `correct_index` key. -/
theorem dictGet_repairTypeFix_ne (fs : List (String × JValue)) (k : String)
    (hk : k ≠ "correct_index") :
    dictGet (repairTypeFix fs) k = dictGet fs k := by
  unfold repairTypeFix
  split
  · exact dictGet_dictSet_ne k "correct_index" _ hk fs
  · rfl

/-- After the type fix the `correct_index` binding exists and is an
`isinstance(..., int)` value. -/
theorem repairTypeFix_ci (fs : List (String × JValue)) :
    ∃ civ, dictGet (repairTypeFix fs) "correct_index" = some civ ∧
      pyIsInstInt civ = true := by
  unfold repairTypeFix
  cases hc : dictGet fs "correct_index" with
  | none =>
    simp only [hc, Option.elim, if_pos]
    exact ⟨.jint 0, dictGet_dictSet_self _ _ fs, rfl⟩
  | some c =>
    cases c with
    | jint n => exact ⟨.jint n, by simp [hc, Option.elim, pyIsInstInt], rfl⟩
    | jbool b => exact ⟨.jbool b, by simp [hc, Option.elim, pyIsInstInt], rfl⟩
    | null => exact ⟨.jint 0, by simp [hc, Option.elim, pyIsInstInt, dictGet_dictSet_self], rfl⟩
    | jfloat q => exact ⟨.jint 0, by simp [hc, Option.elim, pyIsInstInt, dictGet_dictSet_self], rfl⟩
    | jstr s => exact ⟨.jint 0, by simp [hc, Option.elim, pyIsInstInt, dictGet_dictSet_self], rfl⟩
    | jarr l => exact ⟨.jint 0, by simp [hc, Option.elim, pyIsInstInt, dictGet_dictSet_self], rfl⟩
    | jobj f => exact ⟨.jint 0, by simp [hc, Option.elim, pyIsInstInt, dictGet_dictSet_self], rfl⟩

/-- What the repair pass guarantees for a record it returns: `correct_index`
is present, an `isinstance(..., int)` value, non-negative, and — whenever the
`options` value has a length `L` — smaller than `L` when `L > 0`, and exactly
0 when `L = 0` (in which case it is NOT a valid index, no index being valid
for an empty sequence). -/
theorem repairRecord_ci_spec (fs fs3 : List (String × JValue))
    (h : repairRecord fs = .ok fs3) :
    ∃ civ, dictGet fs3 "correct_index" = some civ ∧ pyIsInstInt civ = true ∧
      0 ≤ pyIntValOf civ ∧
      (∀ opts L, dictGet fs3 "options" = some opts → pyLen opts = some L →
        (0 < L → pyIntValOf civ < L) ∧ (L = 0 → pyIntValOf civ = 0)) := by
  obtain ⟨civ1, hciv1, hint1⟩ := repairTypeFix_ci fs
  unfold repairRecord at h
  set fs1 := repairTypeFix fs with hfs1
  set n : Int := pyIntValOf ((dictGet fs1 "correct_index").getD (.jint 0)) with hn
  have hnv : n = pyIntValOf civ1 := by
    rw [hn, hciv1]
    rfl
  by_cases hneg : n < 0
  · rw [if_pos hneg] at h
    obtain rfl := Except.ok.inj h
    refine ⟨.jint 0, ?_, rfl, by simp [pyIntValOf], ?_⟩
    · rw [dictGet_addExplanation_ne _ _ (by decide)]
      exact dictGet_dictSet_self _ _ fs1
    · intro opts L _ hL1
      refine ⟨fun h0 => ?_, fun h0 => rfl⟩
      simp only [pyIntValOf]
      omega
  · rw [if_neg hneg] at h
    cases hL : pyLen ((dictGet fs1 "options").getD (.jarr [])) with
    | none => rw [hL] at h; cases h
    | some L =>
      rw [hL] at h
      obtain rfl := Except.ok.inj h
      by_cases hout : (L : Int) ≤ n
      · refine ⟨.jint 0, ?_, rfl, by simp [pyIntValOf], ?_⟩
        · rw [if_pos hout, dictGet_addExplanation_ne _ _ (by decide)]
          exact dictGet_dictSet_self _ _ fs1
        · intro opts L2 hopts hL2
          rw [if_pos hout, dictGet_addExplanation_ne _ _ (by decide),
            dictGet_dictSet_ne _ _ _ (by decide)] at hopts
          rw [hopts] at hL
          simp only [Option.getD_some] at hL
          rw [hL2] at hL
          obtain rfl := Option.some.inj hL
          refine ⟨fun h0 => ?_, fun h0 => rfl⟩
          simp only [pyIntValOf]
          omega
      · refine ⟨civ1, ?_, hint1, by omega, ?_⟩
        · rw [if_neg hout, dictGet_addExplanation_ne _ _ (by decide)]
          exact hciv1
        · intro opts L2 hopts hL2
          rw [if_neg hout, dictGet_addExplanation_ne _ _ (by decide)] at hopts
          rw [hopts] at hL
          simp only [Option.getD_some] at hL
          rw [hL2] at hL
          obtain rfl := Option.some.inj hL
          constructor
          · intro _
            omega
          · intro hL0
            omega

/-- The repair pass touches at most the `correct_index` and `explanation`
bindings. -/
theorem repairRecord_frame (fs fs3 : List (String × JValue))
    (h : repairRecord fs = .ok fs3) :
    ∀ k, k ≠ "correct_index" → k ≠ "explanation" → dictGet fs3 k = dictGet fs k := by
  intro k hk1 hk2
  unfold repairRecord at h
  set fs1 := repairTypeFix fs with hfs1
  have hbase : dictGet fs1 k = dictGet fs k := dictGet_repairTypeFix_ne fs k hk1
  by_cases hneg : pyIntValOf ((dictGet fs1 "correct_index").getD (.jint 0)) < 0
  · rw [if_pos hneg] at h
    obtain rfl := Except.ok.inj h
    rw [dictGet_addExplanation_ne _ _ hk2, dictGet_dictSet_ne _ _ _ hk1]
    exact hbase
  · rw [if_neg hneg] at h
    cases hL : pyLen ((dictGet fs1 "options").getD (.jarr [])) with
    | none => rw [hL] at h; cases h
    | some L =>
      rw [hL] at h
      obtain rfl := Except.ok.inj h
      rw [dictGet_addExplanation_ne _ _ hk2]
      split
      · rw [dictGet_dictSet_ne _ _ _ hk1]
        exact hbase
      · exact hbase

/-- Every record in a successful validation run comes from a kept element of
the decoded list, via the repair pass. -/
theorem validateQuestions_mem :
    ∀ qs vs, validateQuestions qs = .ok vs → ∀ v, v ∈ vs →
      ∃ fs fs3, v = .jobj fs3 ∧ .jobj fs ∈ qs ∧ repairRecord fs = .ok fs3 ∧
        (dictGet fs "question").isSome = true ∧ (dictGet fs "options").isSome = true := by
  intro qs
  induction qs with
  | nil =>
    intro vs h v hv
    simp only [validateQuestions] at h
    obtain rfl := Except.ok.inj h
    cases hv
  | cons q rest ih =>
    intro vs h v hv
    cases q with
    | jobj fs =>
      simp only [validateQuestions] at h
      by_cases hkeep : ((dictGet fs "question").isSome && (dictGet fs "options").isSome) = true
      · rw [if_pos hkeep] at h
        cases hr : repairRecord fs with
        | error e => rw [hr] at h; cases h
        | ok fs3 =>
          rw [hr] at h
          cases hrest : validateQuestions rest with
          | error e => rw [hrest] at h; cases h
          | ok vs2 =>
            rw [hrest] at h
            obtain rfl := Except.ok.inj h
            rcases List.mem_cons.mp hv with rfl | hv2
            · obtain ⟨hq, ho⟩ :
                  (dictGet fs "question").isSome = true ∧
                    (dictGet fs "options").isSome = true := by
                simpa using hkeep
              exact ⟨fs, fs3, rfl, List.mem_cons_self _ _, hr, hq, ho⟩
            · obtain ⟨fs2, fs4, hv3, hmem, hrep, hq, ho⟩ := ih vs2 hrest v hv2
              exact ⟨fs2, fs4, hv3, List.mem_cons_of_mem _ hmem, hrep, hq, ho⟩
      · rw [if_neg hkeep] at h
        obtain ⟨fs2, fs4, hv3, hmem, hrep, hq, ho⟩ := ih vs h v hv
        exact ⟨fs2, fs4, hv3, List.mem_cons_of_mem _ hmem, hrep, hq, ho⟩
    | null =>
      obtain ⟨fs2, fs4, hv3, hmem, hrep, hq, ho⟩ := ih vs h v hv
      exact ⟨fs2, fs4, hv3, List.mem_cons_of_mem _ hmem, hrep, hq, ho⟩
    | jbool b =>
      obtain ⟨fs2, fs4, hv3, hmem, hrep, hq, ho⟩ := ih vs h v hv
      exact ⟨fs2, fs4, hv3, List.mem_cons_of_mem _ hmem, hrep, hq, ho⟩
    | jint n =>
      obtain ⟨fs2, fs4, hv3, hmem, hrep, hq, ho⟩ := ih vs h v hv
      exact ⟨fs2, fs4, hv3, List.mem_cons_of_mem _ hmem, hrep, hq, ho⟩
    | jfloat q2 =>
      obtain ⟨fs2, fs4, hv3, hmem, hrep, hq, ho⟩ := ih vs h v hv
      exact ⟨fs2, fs4, hv3, List.mem_cons_of_mem _ hmem, hrep, hq, ho⟩
    | jstr s =>
      obtain ⟨fs2, fs4, hv3, hmem, hrep, hq, ho⟩ := ih vs h v hv
      exact ⟨fs2, fs4, hv3, List.mem_cons_of_mem _ hmem, hrep, hq, ho⟩
    | jarr l =>
      obtain ⟨fs2, fs4, hv3, hmem, hrep, hq, ho⟩ := ih vs h v hv
      exact ⟨fs2, fs4, hv3, List.mem_cons_of_mem _ hmem, hrep, hq, ho⟩

/-- Records kept by `generate_questions` all pass through the repair pass. -/
theorem generate_questions_mem (env : QEnv) (v : JValue)
    (hv : v ∈ generate_questions env) :
    ∃ qs fs fs3, decodedQuestions env = some qs ∧ v = .jobj fs3 ∧ .jobj fs ∈ qs ∧
      repairRecord fs = .ok fs3 ∧
      (dictGet fs "question").isSome = true ∧ (dictGet fs "options").isSome = true := by
  cases hd : decodedQuestions env with
  | none =>
    have hgen : generate_questions env = [] := by
      unfold generate_questions
      rw [hd]
    rw [hgen] at hv
    cases hv
  | some qs =>
    cases hval : validateQuestions qs with
    | error e =>
      have hgen : generate_questions env = [] := by
        unfold generate_questions
        rw [hd]
        show (match validateQuestions qs with
          | .ok vs => vs
          | .error _ => []) = []
        rw [hval]
      rw [hgen] at hv
      cases hv
    | ok vs =>
      have hgen : generate_questions env = vs := by
        unfold generate_questions
        rw [hd]
        show (match validateQuestions qs with
          | .ok vs2 => vs2
          | .error _ => []) = vs
        rw [hval]
      rw [hgen] at hv
      obtain ⟨fs, fs3, hv3, hmem, hrep, hq, ho⟩ := validateQuestions_mem qs vs hval v hv
      exact ⟨qs, fs, fs3, rfl, hv3, hmem, hrep, hq, ho⟩

/-- C2 (amended): every question record kept by `generate_questions` carries,
after the repair pass, a `correct_index` that is a non-negative
`isinstance(..., int)` value; whenever the record's `options` value has a
length `L > 0` the index is a valid position (`< L`), and when the options
sequence is empty (`L = 0`) the index is coerced to 0 — which is NOT a valid
index into an empty sequence, contrary to the claim as stated (see
`c2_counterexample`). -/
theorem c2_correct_index_repair (env : QEnv) (v : JValue)
    (hv : v ∈ generate_questions env) :
    ∃ fs civ, v = .jobj fs ∧ dictGet fs "correct_index" = some civ ∧
      pyIsInstInt civ = true ∧ 0 ≤ pyIntValOf civ ∧
      (∀ opts L, dictGet fs "options" = some opts → pyLen opts = some L →
        (0 < L → pyIntValOf civ < L) ∧ (L = 0 → pyIntValOf civ = 0)) := by
  obtain ⟨qs, fs, fs3, hd, rfl, hmem, hrep, hq, ho⟩ := generate_questions_mem env v hv
  obtain ⟨civ, hciv, hint, hpos, hrange⟩ := repairRecord_ci_spec fs fs3 hrep
  exact ⟨fs3, civ, rfl, hciv, hint, hpos, hrange⟩

/-- C10: the repair pass modifies at most the `correct_index` and
`explanation` fields of a kept record — the `question` and `options` values
and every other field read back unchanged from the decoded record. -/
theorem c10_repair_frame (env : QEnv) (v : JValue)
    (hv : v ∈ generate_questions env) :
    ∃ qs fs fs3, decodedQuestions env = some qs ∧ .jobj fs ∈ qs ∧ v = .jobj fs3 ∧
      ∀ k, k ≠ "correct_index" → k ≠ "explanation" →
        dictGet fs3 k = dictGet fs k := by
  obtain ⟨qs, fs, fs3, hd, hv3, hmem, hrep, _, _⟩ := generate_questions_mem env v hv
  exact ⟨qs, fs, fs3, hd, hmem, hv3, repairRecord_frame fs fs3 hrep⟩

/-- Raw model response for the C2 counterexample: one record with an empty
options array and an out-of-range index. -/
def qTextC2 : String :=
  "[\x7b\"question\": \"q\", \"options\": [], \"correct_index\": 5\x7d]"

/-- A `json.loads` behaviour agreeing with Python's on the one string this run
feeds it. -/
def loadsC2 : String → Option JValue := fun s =>
  if s = qTextC2 then
    some (.jarr [.jobj [("question", .jstr "q"), ("options", .jarr []),
      ("correct_index", .jint 5)]])
  else none

/-- A `generate_questions` run that decodes to a single record with empty
options. -/
def envC2 : QEnv := ⟨.ok qTextC2, loadsC2⟩

/-- Counterexample to C2 as stated: the record with empty `options` is kept
and its `correct_index` is coerced to 0, but 0 is not a valid index into an
empty options sequence (`¬ 0 < 0`), so the repaired index is NOT always a
valid index. -/
theorem c2_counterexample :
    generate_questions envC2 =
      [.jobj [("question", .jstr "q"), ("options", .jarr []),
        ("correct_index", .jint 0),
        ("explanation", .jstr "This is the correct answer.")]] ∧
      ¬ ((0 : Int) < 0) := by
  exact ⟨rfl, by omega⟩

/-- Raw model response for the C2 witness: one fully well-formed record. -/
def qTextC2W : String :=
  "[\x7b\"question\": \"q\", \"options\": [\"a\", \"b\", \"c\", \"d\"], \"correct_index\": 2, \"explanation\": \"e\"\x7d]"

/-- The decoded (and, being valid, unchanged) record of the C2 witness run. -/
def v0C2W : JValue :=
  .jobj [("question", .jstr "q"),
    ("options", .jarr [.jstr "a", .jstr "b", .jstr "c", .jstr "d"]),
    ("correct_index", .jint 2), ("explanation", .jstr "e")]

/-- A `generate_questions` run that keeps exactly one well-formed record. -/
def envC2W : QEnv :=
  ⟨.ok qTextC2W, fun s => if s = qTextC2W then some (.jarr [v0C2W]) else none⟩

/-- Witness for C2 (amended) at a concrete run: the kept record's
`correct_index` 2 is a valid index into its four options. -/
theorem c2_correct_index_repair_witness :
    ∃ fs civ, v0C2W = .jobj fs ∧ dictGet fs "correct_index" = some civ ∧
      pyIsInstInt civ = true ∧ 0 ≤ pyIntValOf civ ∧
      (∀ opts L, dictGet fs "options" = some opts → pyLen opts = some L →
        (0 < L → pyIntValOf civ < L) ∧ (L = 0 → pyIntValOf civ = 0)) :=
  c2_correct_index_repair envC2W v0C2W
    (List.mem_singleton_self v0C2W : v0C2W ∈ [v0C2W])

/-- Raw model response for the C10 witness: a record missing `correct_index`
and `explanation` but carrying an extra `difficulty` field. -/
def qTextC10 : String :=
  "[\x7b\"question\": \"q\", \"options\": [\"a\", \"b\"], \"difficulty\": \"hard\"\x7d]"

/-- A `generate_questions` run whose single record needs both repairs. -/
def envC10 : QEnv :=
  ⟨.ok qTextC10, fun s =>
    if s = qTextC10 then
      some (.jarr [.jobj [("question", .jstr "q"),
        ("options", .jarr [.jstr "a", .jstr "b"]),
        ("difficulty", .jstr "hard")]])
    else none⟩

/-- The record kept by the C10 witness run, after both repairs. -/
def r0C10 : JValue :=
  .jobj [("question", .jstr "q"), ("options", .jarr [.jstr "a", .jstr "b"]),
    ("difficulty", .jstr "hard"), ("correct_index", .jint 0),
    ("explanation", .jstr "This is the correct answer.")]

/-- Witness for C10 at a concrete run: the repaired record still reads back
the original `question`, `options` and `difficulty` values. -/
theorem c10_repair_frame_witness :
    ∃ qs fs fs3, decodedQuestions envC10 = some qs ∧ .jobj fs ∈ qs ∧
      r0C10 = .jobj fs3 ∧
      ∀ k, k ≠ "correct_index" → k ≠ "explanation" →
        dictGet fs3 k = dictGet fs k :=
  c10_repair_frame envC10 r0C10
    (List.mem_singleton_self r0C10 : r0C10 ∈ [r0C10])

/-! ## Theorems about the orchestrator (claim C7) -/

/-- The entry written for index `i` is named after the `i`-th subtopic,
whether the invocation succeeded or raised. -/
theorem mkEntry_name (subs : List String) (qres : Nat → Outcome (List JValue)) (i : Nat) :
    (mkEntry subs qres i).name = subs.getD i "" := by
  unfold mkEntry
  cases qres i <;> rfl

/-- The write-back loop never changes the buffer length. -/
theorem writeBack_length (subs : List String) (qres : Nat → Outcome (List JValue)) :
    ∀ (order : List Nat) (acc : List (Option SubtopicEntry)),
      (writeBack subs qres order acc).length = acc.length := by
  intro order
  induction order with
  | nil => intro acc; rfl
  | cons i rest ih =>
    intro acc
    rw [writeBack, ih, List.length_set]

/-- Positional content of the write-back loop: an index receives its own
entry when it occurs in the completion order, and keeps the buffer's value
otherwise — later completions never overwrite another index. -/
theorem writeBack_getElem (subs : List String) (qres : Nat → Outcome (List JValue)) :
    ∀ (order : List Nat) (acc : List (Option SubtopicEntry)),
      (∀ i, i ∈ order → i < acc.length) → ∀ j,
      (writeBack subs qres order acc)[j]?
        = if j ∈ order then some (some (mkEntry subs qres j)) else acc[j]? := by
  intro order
  induction order with
  | nil =>
    intro acc _ j
    simp [writeBack]
  | cons i rest ih =>
    intro acc hlt j
    rw [writeBack]
    rw [ih (acc.set i (some (mkEntry subs qres i)))
      (fun i2 h2 => by rw [List.length_set]; exact hlt i2 (List.mem_cons_of_mem _ h2)) j]
    by_cases hjr : j ∈ rest
    · simp [hjr, List.mem_cons_of_mem _ hjr]
    · by_cases hji : j = i
      · subst hji
        rw [if_neg hjr, if_pos (List.mem_cons_self _ _)]
        exact List.getElem?_set_self (hlt j (List.mem_cons_self _ _))
      · rw [if_neg hjr, if_neg (by simp [hji, hjr]),
          List.getElem?_set_ne (fun h => hji h.symm)]

/-- With a completion order that is a permutation of the original indices,
the filled buffer is exactly the sequence of entries in original order. -/
theorem writeBack_perm (subs : List String) (qres : Nat → Outcome (List JValue))
    (order : List Nat) (h : order.Perm (List.range subs.length)) :
    writeBack subs qres order (List.replicate subs.length none)
      = (List.range subs.length).map (fun j => some (mkEntry subs qres j)) := by
  have hmem : ∀ i, i ∈ order ↔ i < subs.length := by
    intro i
    rw [h.mem_iff, List.mem_range]
  apply List.ext_getElem?_iff.mpr
  intro j
  rw [writeBack_getElem subs qres order (List.replicate subs.length none)
    (fun i hi => by simpa using (hmem i).mp hi) j]
  by_cases hj : j < subs.length
  · rw [if_pos ((hmem j).mpr hj), List.getElem?_map,
      List.getElem?_eq_getElem (by simpa using hj)]
    simp
  · rw [if_neg (fun hc => hj ((hmem j).mp hc)), List.getElem?_eq_none (by simpa using hj),
      List.getElem?_eq_none (by simpa using hj)]

/-- Dropping the `some` wrappers from a fully-written buffer. -/
theorem reduceOption_map_some {α β : Type} (f : α → β) :
    ∀ l : List α, (l.map fun x => some (f x)).reduceOption = l.map f := by
  intro l
  induction l with
  | nil => rfl
  | cons a rest ih => simp [ih]

/-- Reading a list back through `getD` over its index range. -/
theorem range_map_getD (d : String) :
    ∀ l : List String, (List.range l.length).map (fun i => l.getD i d) = l := by
  intro l
  induction l with
  | nil => rfl
  | cons a rest ih =>
    rw [List.length_cons, List.range_succ_eq_map, List.map_cons, List.map_map]
    have : ((fun i => (a :: rest).getD i d) ∘ Nat.succ) = fun i => rest.getD i d := by
      funext i
      rfl
    rw [this, ih]
    rfl

/-- The canonical shape of the orchestrator output: one entry per (truncated)
subtopic, in original order, independent of the completion order. -/
theorem create_study_tree_canonical (env : GenEnv) (topic : String)
    (qres : Nat → Outcome (List JValue)) (order : List Nat)
    (h : order.Perm (List.range ((get_subtopics env topic).take 9).length)) :
    create_study_tree env topic qres order
      = ⟨topic, (List.range ((get_subtopics env topic).take 9).length).map
          (mkEntry ((get_subtopics env topic).take 9) qres)⟩ := by
  unfold create_study_tree
  set subs := (get_subtopics env topic).take 9 with hsubs
  by_cases he : subs.isEmpty
  · rw [if_pos he]
    have : subs.length = 0 := by
      rw [List.isEmpty_iff] at he
      rw [he]
      rfl
    rw [this]
    rfl
  · rw [if_neg he, writeBack_perm subs qres order h, reduceOption_map_some]

/-- C7: for every completion order of the concurrent question-generation
invocations (modelled as a permutation of the original indices), the
`subtopics` of `create_study_tree` list one entry per subtopic of
`get_subtopics` (truncated to 9) in that original order — each entry's name
is the subtopic at its position — and any two completion orders produce the
identical tree. -/
theorem c7_order_independent (env : GenEnv) (topic : String)
    (qres : Nat → Outcome (List JValue)) (order order2 : List Nat)
    (h1 : order.Perm (List.range ((get_subtopics env topic).take 9).length))
    (h2 : order2.Perm (List.range ((get_subtopics env topic).take 9).length)) :
    (create_study_tree env topic qres order).subtopics.map SubtopicEntry.name
        = (get_subtopics env topic).take 9
      ∧ create_study_tree env topic qres order
        = create_study_tree env topic qres order2 := by
  constructor
  · rw [create_study_tree_canonical env topic qres order h1]
    show ((List.range ((get_subtopics env topic).take 9).length).map
        (mkEntry ((get_subtopics env topic).take 9) qres)).map SubtopicEntry.name
      = (get_subtopics env topic).take 9
    rw [List.map_map]
    have : (SubtopicEntry.name ∘ mkEntry ((get_subtopics env topic).take 9) qres)
        = fun i => ((get_subtopics env topic).take 9).getD i "" := by
      funext i
      exact mkEntry_name _ qres i
    rw [this, range_map_getD]
  · rw [create_study_tree_canonical env topic qres order h1,
      create_study_tree_canonical env topic qres order2 h2]

/-- A three-subtopic environment for the C7 witness: the main call decodes to
three specific subtopics. -/
def subTextC7 : String := "[\"Kinematics\", \"Dynamics\", \"Waves\"]"

/-- The environment of the C7 witness run. -/
def envC7 : GenEnv :=
  ⟨.ok subTextC7, .raise (.other "unused"), fun s =>
    if s = subTextC7 then
      some (.jarr [.jstr "Kinematics", .jstr "Dynamics", .jstr "Waves"])
    else none⟩

/-- Per-index invocation results of the C7 witness run: index 1 raises. -/
def qresC7 : Nat → Outcome (List JValue) := fun i =>
  if i = 1 then .raise (.other "boom") else .ok [.jstr "q"]

/-- Witness for C7 at a concrete run: completion orders `[2, 0, 1]` and
`[0, 1, 2]` both yield the tree with names in original subtopic order. -/
theorem c7_order_independent_witness :
    (create_study_tree envC7 "Physics" qresC7 [2, 0, 1]).subtopics.map SubtopicEntry.name
        = (get_subtopics envC7 "Physics").take 9
      ∧ create_study_tree envC7 "Physics" qresC7 [2, 0, 1]
        = create_study_tree envC7 "Physics" qresC7 [0, 1, 2] :=
  c7_order_independent envC7 "Physics" qresC7 [2, 0, 1] [0, 1, 2]
    (by decide) (by decide)

/-! ## Theorems about the HTTP layer (claims C8, C9) -/

/-- C8: the transition-message generator issues exactly one model call and
returns the model's trimmed text verbatim (no JSON parsing); any exception
propagates unchanged, and — through the route's generic handler — surfaces to
the HTTP caller as a 500-class generic failure carrying the error text.
(Modelled from the spec, see `generate_planet_transition_message`.) -/
theorem c8_transition_contract (env : TransitionEnv) (topic fp tp fs ts : String) :
    (generate_planet_transition_message env topic fp tp fs ts).2 = 1
    ∧ (∀ raw, env.call = .ok raw →
        (generate_planet_transition_message env topic fp tp fs ts).1 = .ok (pyStrip raw))
    ∧ (∀ e, env.call = .raise e →
        (generate_planet_transition_message env topic fp tp fs ts).1 = .raise e
        ∧ (pyStrip topic ≠ "" → pyStrip fp ≠ "" → pyStrip tp ≠ "" →
            pyStrip fs ≠ "" → pyStrip ts ≠ "" →
            planet_transition env topic fp tp fs ts = .serverError e.msg)) := by
  refine ⟨rfl, ?_, ?_⟩
  · intro raw h
    unfold generate_planet_transition_message
    rw [h]
  · intro e h
    have hg : (generate_planet_transition_message env (pyStrip topic) (pyStrip fp)
        (pyStrip tp) (pyStrip fs) (pyStrip ts)).1 = .raise e := by
      unfold generate_planet_transition_message
      rw [h]
    constructor
    · unfold generate_planet_transition_message
      rw [h]
    · intro h1 h2 h3 h4 h5
      unfold planet_transition
      rw [if_neg (by simp [h1, h2, h3, h4, h5]), hg]

/-- A transition-generation run whose single model call raises a generic
error. -/
def envC8 : TransitionEnv := ⟨.raise (.other "model down")⟩

/-- Witness for C8 at a concrete run: one call, the error propagates, and the
route reports the generic 500 failure. -/
theorem c8_transition_contract_witness :
    (generate_planet_transition_message envC8 "Math" "Mercury" "Venus" "Algebra" "Geometry").2 = 1
    ∧ (generate_planet_transition_message envC8 "Math" "Mercury" "Venus" "Algebra" "Geometry").1
        = .raise (.other "model down")
    ∧ planet_transition envC8 "Math" "Mercury" "Venus" "Algebra" "Geometry"
        = .serverError "model down" := by
  have h := c8_transition_contract envC8 "Math" "Mercury" "Venus" "Algebra" "Geometry"
  exact ⟨h.1, (h.2.2 (.other "model down") rfl).1,
    (h.2.2 (.other "model down") rfl).2 (by decide) (by decide) (by decide)
      (by decide) (by decide)⟩

/-- C9 (amended): the `questions_per_subtopic` value passed on by the
generate-study route always lies in `[1, 10]`; it is 3 when the field is
missing or not `int()`-convertible, and when the field IS `int()`-convertible
— including numeric strings, floats and booleans, which the claim called
invalid — the converted value is used whenever it lies in `[1, 10]` and 3
otherwise. -/
theorem c9_qps_clamped (data : List (String × JValue)) :
    1 ≤ generate_study_qps data ∧ generate_study_qps data ≤ 10
    ∧ (pyIntOf ((dictGet data "questions_per_subtopic").getD (.jint 3)) = none →
        generate_study_qps data = 3)
    ∧ (∀ n, pyIntOf ((dictGet data "questions_per_subtopic").getD (.jint 3)) = some n →
        generate_study_qps data = if n < 1 ∨ 10 < n then 3 else n) := by
  cases hp : pyIntOf ((dictGet data "questions_per_subtopic").getD (.jint 3)) with
  | none =>
    have hg : generate_study_qps data = 3 := by
      unfold generate_study_qps
      rw [hp]
    refine ⟨by rw [hg]; omega, by rw [hg]; omega, fun _ => hg, fun n hn => ?_⟩
    cases hn
  | some n =>
    have hg : generate_study_qps data = if n < 1 ∨ 10 < n then 3 else n := by
      unfold generate_study_qps
      rw [hp]
    have hrange : 1 ≤ generate_study_qps data ∧ generate_study_qps data ≤ 10 := by
      rw [hg]
      by_cases hr : n < 1 ∨ 10 < n
      · rw [if_pos hr]
        omega
      · rw [if_neg hr]
        omega
    refine ⟨hrange.1, hrange.2, fun hc => ?_, fun m hm => ?_⟩
    · cases hc
    · obtain rfl := Option.some.inj hm
      exact hg

/-- Witness for C9 (amended) at a concrete request body: the numeric string
`" 7 "` is coerced by `int()` and used as is. -/
theorem c9_qps_clamped_witness :
    generate_study_qps [("questions_per_subtopic", .jstr " 7 ")] = 7 := by
  have h := (c9_qps_clamped [("questions_per_subtopic", .jstr " 7 ")]).2.2.2 7 rfl
  rw [h]
  norm_num

/-- Counterexample to C9 as stated: the JSON string `"7"` is not an integer,
so the claim requires the value 3, but the route's `int()` coercion accepts it
and passes 7. -/
theorem c9_counterexample :
    generate_study_qps [("questions_per_subtopic", .jstr "7")] = 7 ∧ (7 : Int) ≠ 3 := by
  exact ⟨rfl, by omega⟩

end TrueCopilot
